import Mathlib

/-!
Verification of the crime-impact analysis core (crime_impact.py and
crimeareaclusterer.py): the density scorer, the haversine distance function,
the per-category DBSCAN cluster builder, the coverage-area binning query and
the batch listing-update step.

Conventions of the shallow embedding:
* machine reals are modelled by `ℚ` (exact rational arithmetic); the float
  constant `np.pi` is embedded as the exact rational value of the IEEE-754
  double `3.141592653589793`;
* the transcendental distance function (haversine) is opaque to the scorer, so
  `calculate_crime_impact` is parameterised over the distance function it
  applies to every incident row, exactly as the source applies
  `haversine_distance` row-wise; every theorem below is proved for an
  arbitrary distance function, hence in particular for haversine;
* the trigonometric primitives used by `haversine_distance` are abstracted as
  a `TrigOps` record of rational functions, and float NaN propagation is
  modelled by the `FpVal` type (`nan` or a numeric value), with each float
  operation lifted so that it maps `nan` to `nan`, which is the IEEE-754
  behaviour of `+`, `-`, `*`, `/`, `sin`, `cos`, `sqrt` and `atan2`.
-/

/-- Radius of the immediate area in miles (`IMMEDIATE_AREA_MILES = 0.25`). -/
def IMMEDIATE_AREA_MILES : ℚ := 1 / 4

/-- Radius of the general area in miles (`GENERAL_AREA_MILES = 2.0`). -/
def GENERAL_AREA_MILES : ℚ := 2

/-- Exact rational value of the IEEE-754 double `np.pi = 3.141592653589793`. -/
def np_pi : ℚ := 884279719003555 / 281474976710656

/-- Area of the immediate disk, `np.pi * IMMEDIATE_AREA_MILES**2`. -/
def immediate_area : ℚ := np_pi * IMMEDIATE_AREA_MILES ^ 2

/-- Area of the general disk, `np.pi * GENERAL_AREA_MILES**2`. -/
def general_area : ℚ := np_pi * GENERAL_AREA_MILES ^ 2

/-- One row of the `crimes_df` data frame: a crime type and a coordinate. -/
structure Crime where
  crime_type : String
  latitude : ℚ
  longitude : ℚ
deriving DecidableEq, Repr

/-- Type of the row-wise distance function applied by the scorer
(`haversine_distance property_lat property_lon row.latitude row.longitude`). -/
abbrev DistFn : Type := ℚ → ℚ → ℚ → ℚ → ℚ

/-- Rows of `crimes_df` whose distance to the property is at most
`IMMEDIATE_AREA_MILES` (the mask `distances <= IMMEDIATE_AREA_MILES`). -/
def immediate_crimes (d : DistFn) (plat plon : ℚ) (crimes_df : List Crime) : List Crime :=
  crimes_df.filter (fun row => d plat plon row.latitude row.longitude ≤ IMMEDIATE_AREA_MILES)

/-- Rows of `crimes_df` whose distance to the property is at most
`GENERAL_AREA_MILES` (the mask `distances <= GENERAL_AREA_MILES`). -/
def general_crimes (d : DistFn) (plat plon : ℚ) (crimes_df : List Crime) : List Crime :=
  crimes_df.filter (fun row => d plat plon row.latitude row.longitude ≤ GENERAL_AREA_MILES)

/-- Immediate density: `len(immediate_crimes) / immediate_area` when the subset
is non-empty, else `0`, as in the source guard. -/
def immediate_density (d : DistFn) (plat plon : ℚ) (crimes_df : List Crime) : ℚ :=
  if (immediate_crimes d plat plon crimes_df).isEmpty then 0
  else ((immediate_crimes d plat plon crimes_df).length : ℚ) / immediate_area

/-- General density: `len(general_crimes) / general_area` when the subset is
non-empty, else `0`, as in the source guard. -/
def general_density (d : DistFn) (plat plon : ℚ) (crimes_df : List Crime) : ℚ :=
  if (general_crimes d plat plon crimes_df).isEmpty then 0
  else ((general_crimes d plat plon crimes_df).length : ℚ) / general_area

/-- Relative density with the division-by-zero guard of the source:
`0` if `general_density == 0`, else `immediate_density / general_density`. -/
def relative_density (d : DistFn) (plat plon : ℚ) (crimes_df : List Crime) : ℚ :=
  if general_density d plat plon crimes_df = 0 then 0
  else immediate_density d plat plon crimes_df / general_density d plat plon crimes_df

/-- Number of rows of the immediate subset with the given crime type. -/
def immediate_type_count (d : DistFn) (plat plon : ℚ) (crimes_df : List Crime)
    (ct : String) : ℕ :=
  ((immediate_crimes d plat plon crimes_df).filter (fun row => row.crime_type = ct)).length

/-- Number of rows of the general subset with the given crime type. -/
def general_type_count (d : DistFn) (plat plon : ℚ) (crimes_df : List Crime)
    (ct : String) : ℕ :=
  ((general_crimes d plat plon crimes_df).filter (fun row => row.crime_type = ct)).length

/-- Per-type immediate density `immediate_type_count / immediate_area`. -/
def immediate_type_density (d : DistFn) (plat plon : ℚ) (crimes_df : List Crime)
    (ct : String) : ℚ :=
  (immediate_type_count d plat plon crimes_df ct : ℚ) / immediate_area

/-- Per-type general density `general_type_count / general_area`. -/
def general_type_density (d : DistFn) (plat plon : ℚ) (crimes_df : List Crime)
    (ct : String) : ℚ :=
  (general_type_count d plat plon crimes_df ct : ℚ) / general_area

/-- Per-type relative density `immediate_type_density / general_type_density`. -/
def relative_type_density (d : DistFn) (plat plon : ℚ) (crimes_df : List Crime)
    (ct : String) : ℚ :=
  immediate_type_density d plat plon crimes_df ct / general_type_density d plat plon crimes_df ct

/-- First-occurrence deduplication, the order kept by pandas `Series.unique()`. -/
def uniqueFirst {α : Type} [DecidableEq α] (l : List α) : List α :=
  l.foldl (fun acc x => if x ∈ acc then acc else acc ++ [x]) []

/-- The `crime_types` dictionary built by the per-type loop of
`calculate_crime_impact`: for each crime type occurring in the immediate
subset, if its general density is positive and its relative density exceeds
`1.5`, the pair `(type, relative density)` is recorded. -/
def crime_type_clusters (d : DistFn) (plat plon : ℚ) (crimes_df : List Crime) :
    List (String × ℚ) :=
  (uniqueFirst ((immediate_crimes d plat plon crimes_df).map (fun row => row.crime_type))).filterMap
    (fun ct =>
      if 0 < general_type_density d plat plon crimes_df ct then
        if 3 / 2 < relative_type_density d plat plon crimes_df ct then
          some (ct, relative_type_density d plat plon crimes_df ct)
        else none
      else none)

/-- The `analysis` dictionary of the successful path of
`calculate_crime_impact`. -/
structure DensityAnalysis where
  immediate_crimes : ℕ
  general_crimes : ℕ
  immediate_density : ℚ
  general_density : ℚ
  relative_density : ℚ
  crime_clusters : Option (List (String × ℚ))
deriving DecidableEq, Repr

/-- The analysis value returned by `calculate_crime_impact`: either the
insufficient-data dictionary holding only a note message, or the full
analysis. -/
inductive AnalysisDict where
  | note : String → AnalysisDict
  | data : DensityAnalysis → AnalysisDict
deriving DecidableEq, Repr

/-- The `analysis` dictionary assembled on the successful path: counts,
densities, relative density, and the `crime_clusters` key, which is present
only when the immediate subset is non-empty and the per-type dictionary is
non-empty. -/
def mk_analysis (d : DistFn) (plat plon : ℚ) (crimes_df : List Crime) : DensityAnalysis :=
  { immediate_crimes := (immediate_crimes d plat plon crimes_df).length
    general_crimes := (general_crimes d plat plon crimes_df).length
    immediate_density := immediate_density d plat plon crimes_df
    general_density := general_density d plat plon crimes_df
    relative_density := relative_density d plat plon crimes_df
    crime_clusters :=
      if (immediate_crimes d plat plon crimes_df).isEmpty then none
      else if (crime_type_clusters d plat plon crimes_df).isEmpty then none
      else some (crime_type_clusters d plat plon crimes_df) }

/-- `calculate_crime_impact(property_lat, property_lon, crimes_df)`: returns
`(-1, note)` when `crimes_df` is empty or the general subset is empty, else
the score determined by the fixed cut points `0.75` and `1.5` on the relative
density, together with the analysis dictionary. -/
def calculate_crime_impact (d : DistFn) (plat plon : ℚ) (crimes_df : List Crime) :
    ℚ × AnalysisDict :=
  if crimes_df.isEmpty then
    (-1, AnalysisDict.note "Insufficient crime data for assessment")
  else if (general_crimes d plat plon crimes_df).length = 0 then
    (-1, AnalysisDict.note "No crime data within assessment radius")
  else if relative_density d plat plon crimes_df < 3 / 4 then
    (0, AnalysisDict.data (mk_analysis d plat plon crimes_df))
  else if relative_density d plat plon crimes_df < 3 / 2 then
    (1 / 2, AnalysisDict.data (mk_analysis d plat plon crimes_df))
  else
    (1, AnalysisDict.data (mk_analysis d plat plon crimes_df))

/-- `get_crime_category(score, all_scores)`: maps a score to its category
string; `all_scores` is accepted but unused, as in the source. -/
def get_crime_category (score : ℚ) (all_scores : List ℚ) : String :=
  if score < 0 then "Insufficient Data"
  else if score = 0 then "Low Crime Impact"
  else if score = 1 / 2 then "Some Crime Impact"
  else "High Crime Impact"

/-- Abstract interpretations of the transcendental primitives used by the
haversine formula. `haversine_distance` is proved correct for every such
interpretation; the concrete float library supplies one of them. -/
structure TrigOps where
  sin : ℚ → ℚ
  cos : ℚ → ℚ
  sqrt : ℚ → ℚ
  atan2 : ℚ → ℚ → ℚ

/-- A float value: either NaN or a numeric value. -/
inductive FpVal where
  | nan : FpVal
  | num : ℚ → FpVal
deriving DecidableEq, Repr

/-- Float addition; NaN absorbs, as in IEEE-754. -/
def fadd : FpVal → FpVal → FpVal
  | FpVal.num a, FpVal.num b => FpVal.num (a + b)
  | _, _ => FpVal.nan

/-- Float subtraction; NaN absorbs. -/
def fsub : FpVal → FpVal → FpVal
  | FpVal.num a, FpVal.num b => FpVal.num (a - b)
  | _, _ => FpVal.nan

/-- Float multiplication; NaN absorbs. -/
def fmul : FpVal → FpVal → FpVal
  | FpVal.num a, FpVal.num b => FpVal.num (a * b)
  | _, _ => FpVal.nan

/-- Float division; NaN absorbs (only invoked with the nonzero divisor 2). -/
def fdiv : FpVal → FpVal → FpVal
  | FpVal.num a, FpVal.num b => if b = 0 then FpVal.nan else FpVal.num (a / b)
  | _, _ => FpVal.nan

/-- Float squaring (the `**2` of the source); NaN absorbs. -/
def fpow2 : FpVal → FpVal
  | FpVal.num a => FpVal.num (a ^ 2)
  | FpVal.nan => FpVal.nan

/-- Float sine; `sin(nan) = nan` in IEEE-754. -/
def fsin (t : TrigOps) : FpVal → FpVal
  | FpVal.num a => FpVal.num (t.sin a)
  | FpVal.nan => FpVal.nan

/-- Float cosine; `cos(nan) = nan`. -/
def fcos (t : TrigOps) : FpVal → FpVal
  | FpVal.num a => FpVal.num (t.cos a)
  | FpVal.nan => FpVal.nan

/-- Float square root; `sqrt(nan) = nan`. -/
def fsqrt (t : TrigOps) : FpVal → FpVal
  | FpVal.num a => FpVal.num (t.sqrt a)
  | FpVal.nan => FpVal.nan

/-- Float `atan2`; NaN in either argument gives NaN. -/
def fatan2 (t : TrigOps) : FpVal → FpVal → FpVal
  | FpVal.num a, FpVal.num b => FpVal.num (t.atan2 a b)
  | _, _ => FpVal.nan

/-- `math.radians`: degrees to radians, `x * pi / 180`; NaN absorbs. -/
def fradians : FpVal → FpVal
  | FpVal.num a => FpVal.num (a * np_pi / 180)
  | FpVal.nan => FpVal.nan

/-- Earth radius in miles, `R = 3959.87433`, exactly as in the source. -/
def R_MILES : ℚ := 395987433 / 100000

/-- The intermediate value `a = sin(dlat/2)**2 + cos(lat1)*cos(lat2)*sin(dlon/2)**2`
of `haversine_distance`, computed on radian-converted inputs. -/
def hav_a (t : TrigOps) (lat1 lon1 lat2 lon2 : FpVal) : FpVal :=
  fadd
    (fpow2 (fsin t (fdiv (fsub (fradians lat2) (fradians lat1)) (FpVal.num 2))))
    (fmul (fmul (fcos t (fradians lat1)) (fcos t (fradians lat2)))
      (fpow2 (fsin t (fdiv (fsub (fradians lon2) (fradians lon1)) (FpVal.num 2)))))

/-- `haversine_distance(lat1, lon1, lat2, lon2)`: the haversine formula,
`R * c` with `c = 2 * atan2(sqrt(a), sqrt(1 - a))`, over float values. -/
def haversine_distance (t : TrigOps) (lat1 lon1 lat2 lon2 : FpVal) : FpVal :=
  fmul (FpVal.num R_MILES)
    (fmul (FpVal.num 2)
      (fatan2 t (fsqrt t (hav_a t lat1 lon1 lat2 lon2))
        (fsqrt t (fsub (FpVal.num 1) (hav_a t lat1 lon1 lat2 lon2)))))

/-- The purely numeric haversine formula on rational inputs, with the same
Earth radius constant; the float computation refines it on non-NaN inputs. -/
def haversine_formula (t : TrigOps) (lat1 lon1 lat2 lon2 : ℚ) : ℚ :=
  R_MILES * (2 * t.atan2
    (t.sqrt (t.sin ((lat2 * np_pi / 180 - lat1 * np_pi / 180) / 2) ^ 2 +
      t.cos (lat1 * np_pi / 180) * t.cos (lat2 * np_pi / 180) *
        t.sin ((lon2 * np_pi / 180 - lon1 * np_pi / 180) / 2) ^ 2))
    (t.sqrt (1 - (t.sin ((lat2 * np_pi / 180 - lat1 * np_pi / 180) / 2) ^ 2 +
      t.cos (lat1 * np_pi / 180) * t.cos (lat2 * np_pi / 180) *
        t.sin ((lon2 * np_pi / 180 - lon1 * np_pi / 180) / 2) ^ 2))))

/-- DBSCAN neighbourhood radius in metres (`eps=300`). -/
def eps : ℚ := 300

/-- Squared planar Euclidean distance between two projected points. -/
def distSq (p q : ℚ × ℚ) : ℚ := (p.1 - q.1) ^ 2 + (p.2 - q.2) ^ 2

/-- Neighbour relation of the DBSCAN pass: two distinct in-range indices whose
points lie within `eps` of each other. -/
def adjB (pts : List (ℚ × ℚ)) (i j : ℕ) : Bool :=
  decide (i ≠ j) && decide (i < pts.length) && decide (j < pts.length) &&
    decide (distSq (pts.getD i (0, 0)) (pts.getD j (0, 0)) ≤ eps ^ 2)

/-- A noise point of the DBSCAN pass with `min_samples=2`: a point with no
neighbour within `eps` (fewer than 2 samples, itself included, in its
neighbourhood); such points receive label `-1` and are filtered out. -/
def isNoiseB (pts : List (ℚ × ℚ)) (i : ℕ) : Bool :=
  (List.range pts.length).all (fun j => !(adjB pts i j))

/-- Fuel-bounded reachability in the neighbour graph: with `min_samples=2`
the DBSCAN clusters are exactly the connected components of `adjB`, and a
path between points of one cluster never needs more than `pts.length` hops. -/
def reachB (pts : List (ℚ × ℚ)) : ℕ → ℕ → ℕ → Bool
  | 0, i, j => decide (i = j)
  | fuel + 1, i, j =>
    decide (i = j) ||
      (List.range pts.length).any (fun k => adjB pts i k && reachB pts fuel k j)

/-- The connected component (DBSCAN cluster) of index `i`, as the sorted list
of indices reachable from `i`. -/
def componentB (pts : List (ℚ × ℚ)) (i : ℕ) : List ℕ :=
  (List.range pts.length).filter (fun j => reachB pts pts.length i j)

/-- Canonical representatives of the non-noise DBSCAN clusters: the least
index of each component whose points are not noise. -/
def cluster_reps (pts : List (ℚ × ℚ)) : List ℕ :=
  (List.range pts.length).filter
    (fun i => !(isNoiseB pts i) && decide ((componentB pts i).head? = some i))

/-- One merged cluster produced by `cluster_and_merge`: the crime type of the
group, the member incidents whose buffered disks are merged by `unary_union`
(the geometry is determined by this member list, so the union itself is
abstracted as the list of member indices), and the per-run cluster id. -/
structure ClusterPolygon where
  crime_type : String
  members : List ℕ
  cluster_id : ℕ
deriving DecidableEq, Repr

/-- `cluster_and_merge(gdf_group)`: DBSCAN (`eps=300`, `min_samples=2`) on the
centroids of the buffered points of one crime-type group (the centroid of a
buffered point is the point itself), noise filtered out, and one merged record
per remaining cluster. `pts` are the projected planar coordinates of the
rows of the group. -/
def cluster_and_merge (ct : String) (pts : List (ℚ × ℚ)) : List ClusterPolygon :=
  (cluster_reps pts).enum.map
    (fun p => { crime_type := ct, members := componentB pts p.2, cluster_id := p.1 })

/-- One standardized incident row of the clustering pipeline, with projected
planar coordinates (the UTM projection is performed by an external geodesy
library and is modelled as already applied). -/
structure PlanarIncident where
  crime_type : String
  x : ℚ
  y : ℚ
deriving DecidableEq, Repr

/-- `process_crime_data`: group the incidents by crime type and run
`cluster_and_merge` on each group, concatenating the per-group results. -/
def process_crime_data (incidents : List PlanarIncident) : List ClusterPolygon :=
  (uniqueFirst (incidents.map (fun r => r.crime_type))).flatMap
    (fun ct =>
      cluster_and_merge ct
        ((incidents.filter (fun r => r.crime_type = ct)).map (fun r => (r.x, r.y))))

/-- One row of the `crime_data` table as seen by the coverage query:
a date (days since an arbitrary epoch) and nullable coordinates. -/
structure CrimeRow where
  crime_date : ℤ
  latitude : Option ℚ
  longitude : Option ℚ
deriving DecidableEq, Repr

/-- SQLite `CAST(x AS INT)`: truncation toward zero. -/
def truncTowardZero (q : ℚ) : ℤ :=
  if 0 ≤ q then ⌊q⌋ else ⌈q⌉

/-- The spatial bin key of the coverage query,
`(CAST(latitude * 10 AS INT) / 10.0, CAST(longitude * 10 AS INT) / 10.0)`:
coordinates truncated to 0.1-degree precision. -/
def binKey (lat lon : ℚ) : ℚ × ℚ :=
  ((truncTowardZero (lat * 10) : ℚ) / 10, (truncTowardZero (lon * 10) : ℚ) / 10)

/-- The rows passing the WHERE clause of the coverage query: date within the
lookback window and both coordinates non-NULL; the value kept is the
coordinate pair. -/
def validRows (cutoff : ℤ) (rows : List CrimeRow) : List (ℚ × ℚ) :=
  rows.filterMap (fun r =>
    match r.latitude, r.longitude with
    | some la, some lo => if cutoff ≤ r.crime_date then some (la, lo) else none
    | _, _ => none)

/-- Minimum of a list of rationals (SQL `MIN` over a non-empty group;
`0` for the empty list, which never occurs for a reported group). -/
def qminList : List ℚ → ℚ
  | [] => 0
  | x :: xs => xs.foldl min x

/-- Maximum of a list of rationals (SQL `MAX` over a non-empty group). -/
def qmaxList : List ℚ → ℚ
  | [] => 0
  | x :: xs => xs.foldl max x

/-- One row of the coverage result: the bounding box and incident count of a
surviving spatial bin. -/
structure CoverageArea where
  min_lat : ℚ
  max_lat : ℚ
  min_lon : ℚ
  max_lon : ℚ
  crime_count : ℕ
deriving DecidableEq, Repr

/-- `get_crime_coverage_areas()`: group the valid rows by the 0.1-degree bin
key, keep the groups with `crime_count > 10` (the HAVING clause), and report
MIN/MAX of each coordinate and the count per surviving group. -/
def get_crime_coverage_areas (cutoff : ℤ) (rows : List CrimeRow) : List CoverageArea :=
  (uniqueFirst ((validRows cutoff rows).map (fun p => binKey p.1 p.2))).filterMap
    (fun k =>
      if 10 < ((validRows cutoff rows).filter (fun p => binKey p.1 p.2 = k)).length then
        some
          { min_lat := qminList (((validRows cutoff rows).filter
              (fun p => binKey p.1 p.2 = k)).map (fun p => p.1))
            max_lat := qmaxList (((validRows cutoff rows).filter
              (fun p => binKey p.1 p.2 = k)).map (fun p => p.1))
            min_lon := qminList (((validRows cutoff rows).filter
              (fun p => binKey p.1 p.2 = k)).map (fun p => p.2))
            max_lon := qmaxList (((validRows cutoff rows).filter
              (fun p => binKey p.1 p.2 = k)).map (fun p => p.2))
            crime_count := ((validRows cutoff rows).filter
              (fun p => binKey p.1 p.2 = k)).length }
      else none)

/-- One row of the `listing_analysis` table, restricted to the columns touched
by the update step. -/
structure Listing where
  address : String
  crime_impact : Option String
  analyzed_at : Option String
deriving DecidableEq, Repr

/-- The SQL UPDATE of the batch step: set `crime_impact` and `analyzed_at` on
every row whose address matches. -/
def sql_update_listing (now : String) (store : List Listing) (cat addr : String) :
    List Listing :=
  store.map (fun l =>
    if l.address = addr then
      { l with crime_impact := some cat, analyzed_at := some now }
    else l)

/-- The write phase of `update_listing_analysis`: for each analysed property
(address paired with its score), compute the category from the score and issue
the UPDATE only when the category is not `"Insufficient Data"`. -/
def update_listing_analysis_writes (now : String) (props : List (String × ℚ))
    (store : List Listing) : List Listing :=
  props.foldl
    (fun st p =>
      if get_crime_category p.2 (props.map (fun q => q.2)) ≠ "Insufficient Data" then
        sql_update_listing now st (get_crime_category p.2 (props.map (fun q => q.2))) p.1
      else st)
    store

/-- Concrete distance function used by the witnesses: the distance of a row is
its latitude field, so test rows can be placed at chosen distances. -/
def dist_lat : DistFn := fun _ _ la _ => la

/-- Witness incident set: one row at distance 0.1 (immediate and general) and
one at distance 1 (general only). -/
def csW : List Crime := [⟨"A", 1 / 10, 0⟩, ⟨"B", 1, 0⟩]

/-- Witness incident set with the single row at distance 3, outside the
general radius. -/
def csW1 : List Crime := [⟨"A", 3, 0⟩]

/-- Witness trigonometric interpretation (everything zero). -/
def trig0 : TrigOps := ⟨fun _ => 0, fun _ => 0, fun _ => 0, fun _ _ => 0⟩

/-- Witness point set for the clustering pass: two points 100 metres apart. -/
def ptsW : List (ℚ × ℚ) := [(0, 0), (100, 0)]

/-- Witness rows for the coverage query: eleven valid rows in the same
0.1-degree bin. -/
def rowsW : List CrimeRow :=
  [⟨1, some (0 / 200), some 0⟩, ⟨1, some (1 / 200), some 0⟩, ⟨1, some (2 / 200), some 0⟩,
   ⟨1, some (3 / 200), some 0⟩, ⟨1, some (4 / 200), some 0⟩, ⟨1, some (5 / 200), some 0⟩,
   ⟨1, some (6 / 200), some 0⟩, ⟨1, some (7 / 200), some 0⟩, ⟨1, some (8 / 200), some 0⟩,
   ⟨1, some (9 / 200), some 0⟩, ⟨1, some (10 / 200), some 0⟩]

/-- Witness listing store: a single listing with no analysis yet. -/
def storeW : List Listing := [⟨"123 Main St", none, none⟩]

theorem mem_foldl_dedup {α : Type} [DecidableEq α] (l : List α) (acc : List α) (x : α) :
    (x ∈ l.foldl (fun acc y => if y ∈ acc then acc else acc ++ [y]) acc) ↔
      x ∈ acc ∨ x ∈ l := by
  induction l generalizing acc with
  | nil => simp
  | cons y ys ih =>
    simp only [List.foldl_cons]
    rw [ih]
    by_cases hy : y ∈ acc
    · rw [if_pos hy]
      constructor
      · rintro (h | h)
        · exact Or.inl h
        · exact Or.inr (List.mem_cons_of_mem _ h)
      · rintro (h | h)
        · exact Or.inl h
        · rcases List.mem_cons.mp h with rfl | h
          · exact Or.inl hy
          · exact Or.inr h
    · rw [if_neg hy]
      simp only [List.mem_append, List.mem_cons, List.mem_singleton]
      tauto

theorem mem_uniqueFirst {α : Type} [DecidableEq α] (l : List α) (x : α) :
    x ∈ uniqueFirst l ↔ x ∈ l := by
  unfold uniqueFirst
  rw [mem_foldl_dedup]
  simp

theorem calculate_data_eq (d : DistFn) (plat plon : ℚ) (crimes : List Crime) (s : ℚ)
    (a : DensityAnalysis)
    (h : calculate_crime_impact d plat plon crimes = (s, AnalysisDict.data a)) :
    a = mk_analysis d plat plon crimes := by
  unfold calculate_crime_impact at h
  split_ifs at h <;> simp only [Prod.mk.injEq] at h <;> first
    | exact (AnalysisDict.data.inj h.2).symm
    | exact AnalysisDict.noConfusion h.2

theorem score_neg_one_of_general_nil (d : DistFn) (plat plon : ℚ) (crimes : List Crime)
    (h : general_crimes d plat plon crimes = []) :
    (calculate_crime_impact d plat plon crimes).1 = -1 := by
  by_cases hc : crimes = []
  · subst hc; rfl
  · have h1 : ¬ crimes.isEmpty = true := by
      simp only [List.isEmpty_iff]
      exact hc
    have h2 : (general_crimes d plat plon crimes).length = 0 := by simp [h]
    unfold calculate_crime_impact
    rw [if_neg h1, if_pos h2]

theorem calculate_general_shape (d : DistFn) (plat plon : ℚ) (crimes : List Crime)
    (h : general_crimes d plat plon crimes ≠ []) :
    calculate_crime_impact d plat plon crimes =
      (if relative_density d plat plon crimes < 3 / 4 then 0
       else if relative_density d plat plon crimes < 3 / 2 then 1 / 2
       else 1,
       AnalysisDict.data (mk_analysis d plat plon crimes)) := by
  have hc : crimes ≠ [] := by
    intro hc
    subst hc
    exact h rfl
  have h1 : ¬ crimes.isEmpty = true := by
    simp only [List.isEmpty_iff]
    exact hc
  have h2 : ¬ (general_crimes d plat plon crimes).length = 0 := by
    simp only [List.length_eq_zero]
    exact h
  unfold calculate_crime_impact
  rw [if_neg h1, if_neg h2]
  split_ifs <;> rfl

set_option maxRecDepth 4000 in
theorem csW_calc :
    calculate_crime_impact dist_lat 0 0 csW =
      (1, AnalysisDict.data (mk_analysis dist_lat 0 0 csW)) := by
  rw [calculate_general_shape dist_lat 0 0 csW (by with_unfolding_all decide)]
  rw [if_neg (by with_unfolding_all decide), if_neg (by with_unfolding_all decide)]

/-- C1: for every query point and incident set, if the incident set is empty
or the general subset is empty, `calculate_crime_impact` returns the score
`-1` (a value distinct from the numeric score `0`) paired with an analysis
that holds only a note and no density figures, as a normal return value. -/
theorem insufficient_data_returns_minus_one (d : DistFn) (plat plon : ℚ)
    (crimes : List Crime)
    (h : crimes = [] ∨ general_crimes d plat plon crimes = []) :
    (calculate_crime_impact d plat plon crimes).1 = -1 ∧
      (calculate_crime_impact d plat plon crimes).1 ≠ 0 ∧
      ∃ msg, (calculate_crime_impact d plat plon crimes).2 = AnalysisDict.note msg := by
  have hscore : (calculate_crime_impact d plat plon crimes).1 = -1 := by
    rcases h with h | h
    · subst h; rfl
    · exact score_neg_one_of_general_nil d plat plon crimes h
  refine ⟨hscore, by rw [hscore]; norm_num, ?_⟩
  rcases h with h | h
  · subst h
    exact ⟨"Insufficient crime data for assessment", rfl⟩
  · by_cases hc : crimes = []
    · subst hc
      exact ⟨"Insufficient crime data for assessment", rfl⟩
    · have h1 : ¬ crimes.isEmpty = true := by
        simp only [List.isEmpty_iff]
        exact hc
      have h2 : (general_crimes d plat plon crimes).length = 0 := by simp [h]
      unfold calculate_crime_impact
      rw [if_neg h1, if_pos h2]
      exact ⟨"No crime data within assessment radius", rfl⟩

theorem insufficient_data_returns_minus_one_witness :
    (calculate_crime_impact dist_lat 0 0 csW1).1 = -1 ∧
      (calculate_crime_impact dist_lat 0 0 csW1).1 ≠ 0 ∧
      ∃ msg, (calculate_crime_impact dist_lat 0 0 csW1).2 = AnalysisDict.note msg :=
  insufficient_data_returns_minus_one dist_lat 0 0 csW1 (Or.inr (by with_unfolding_all decide))

/-- C2: in every produced analysis the recorded relative density equals
immediate density divided by general density whenever the general density is
positive, the guard yields `0` when the general density is `0`, and whenever
the general subset is empty the returned score is exactly `-1`. -/
theorem relative_density_guarded (d : DistFn) (plat plon : ℚ) (crimes : List Crime) :
    (∀ s a, calculate_crime_impact d plat plon crimes = (s, AnalysisDict.data a) →
      (0 < a.general_density →
        a.relative_density = a.immediate_density / a.general_density) ∧
      (a.general_density = 0 → a.relative_density = 0)) ∧
    (general_crimes d plat plon crimes = [] →
      (calculate_crime_impact d plat plon crimes).1 = -1) := by
  constructor
  · intro s a h
    have ha := calculate_data_eq d plat plon crimes s a h
    subst ha
    constructor
    · intro hpos
      have hne : general_density d plat plon crimes ≠ 0 := ne_of_gt hpos
      simp only [mk_analysis, relative_density]
      rw [if_neg hne]
    · intro hz
      simp only [mk_analysis] at hz
      simp only [mk_analysis, relative_density]
      rw [if_pos hz]
  · exact score_neg_one_of_general_nil d plat plon crimes

set_option maxRecDepth 4000 in
theorem relative_density_guarded_witness :
    (mk_analysis dist_lat 0 0 csW).relative_density =
        (mk_analysis dist_lat 0 0 csW).immediate_density /
          (mk_analysis dist_lat 0 0 csW).general_density ∧
      (calculate_crime_impact dist_lat 0 0 csW1).1 = -1 :=
  ⟨((relative_density_guarded dist_lat 0 0 csW).1 1 (mk_analysis dist_lat 0 0 csW)
      csW_calc).1 (by with_unfolding_all decide),
    (relative_density_guarded dist_lat 0 0 csW1).2 (by with_unfolding_all decide)⟩

/-- C3: whenever the general subset is non-empty, the densities of the
produced analysis are `count / (np.pi * r**2)` with radii `0.25` and `2.0`
miles, and the returned score follows the fixed cut points on the relative
density: `< 0.75` gives `0`, `< 1.5` gives `0.5`, otherwise `1`. -/
theorem score_fixed_cut_points (d : DistFn) (plat plon : ℚ) (crimes : List Crime)
    (h : general_crimes d plat plon crimes ≠ []) :
    (mk_analysis d plat plon crimes).immediate_density =
        ((immediate_crimes d plat plon crimes).length : ℚ) / (np_pi * (1 / 4 : ℚ) ^ 2) ∧
      (mk_analysis d plat plon crimes).general_density =
        ((general_crimes d plat plon crimes).length : ℚ) / (np_pi * (2 : ℚ) ^ 2) ∧
      calculate_crime_impact d plat plon crimes =
        (if (mk_analysis d plat plon crimes).relative_density < 3 / 4 then 0
         else if (mk_analysis d plat plon crimes).relative_density < 3 / 2 then 1 / 2
         else 1,
         AnalysisDict.data (mk_analysis d plat plon crimes)) := by
  refine ⟨?_, ?_, ?_⟩
  · by_cases hi : (immediate_crimes d plat plon crimes).isEmpty = true
    · have hlen : (immediate_crimes d plat plon crimes).length = 0 := by
        rw [List.isEmpty_iff] at hi
        simp [hi]
      simp [mk_analysis, immediate_density, hi, hlen, immediate_area, IMMEDIATE_AREA_MILES]
    · simp [mk_analysis, immediate_density, hi, immediate_area, IMMEDIATE_AREA_MILES]
  · have hg : ¬ (general_crimes d plat plon crimes).isEmpty = true := by
      simp only [List.isEmpty_iff]
      exact h
    simp [mk_analysis, general_density, hg, general_area, GENERAL_AREA_MILES]
  · rw [calculate_general_shape d plat plon crimes h]
    rfl

theorem score_fixed_cut_points_witness :
    calculate_crime_impact dist_lat 0 0 csW =
      (if (mk_analysis dist_lat 0 0 csW).relative_density < 3 / 4 then 0
       else if (mk_analysis dist_lat 0 0 csW).relative_density < 3 / 2 then 1 / 2
       else 1,
       AnalysisDict.data (mk_analysis dist_lat 0 0 csW)) :=
  (score_fixed_cut_points dist_lat 0 0 csW (by with_unfolding_all decide)).2.2

/-- C4: the immediate subset is always a subset of the general subset, and in
every produced analysis the immediate count is at most the general count. -/
theorem immediate_subset_of_general (d : DistFn) (plat plon : ℚ) (crimes : List Crime) :
    (∀ c ∈ immediate_crimes d plat plon crimes, c ∈ general_crimes d plat plon crimes) ∧
      ∀ s a, calculate_crime_impact d plat plon crimes = (s, AnalysisDict.data a) →
        a.immediate_crimes ≤ a.general_crimes := by
  have hmono : ∀ row : Crime,
      decide (d plat plon row.latitude row.longitude ≤ IMMEDIATE_AREA_MILES) = true →
      decide (d plat plon row.latitude row.longitude ≤ GENERAL_AREA_MILES) = true := by
    intro row hrow
    rw [decide_eq_true_eq] at hrow ⊢
    refine le_trans hrow ?_
    norm_num [IMMEDIATE_AREA_MILES, GENERAL_AREA_MILES]
  constructor
  · intro c hc
    unfold immediate_crimes at hc
    unfold general_crimes
    rw [List.mem_filter] at hc ⊢
    exact ⟨hc.1, hmono c hc.2⟩
  · intro s a h
    have ha := calculate_data_eq d plat plon crimes s a h
    subst ha
    simp only [mk_analysis]
    exact (List.monotone_filter_right crimes hmono).length_le

set_option maxRecDepth 4000 in
theorem immediate_subset_of_general_witness :
    (mk_analysis dist_lat 0 0 csW).immediate_crimes ≤
      (mk_analysis dist_lat 0 0 csW).general_crimes :=
  (immediate_subset_of_general dist_lat 0 0 csW).2 1 (mk_analysis dist_lat 0 0 csW)
    csW_calc

/-- C8: the scorer is deterministic, a pure function of the query point and
the incident set: two calls on identical inputs return identical outputs. -/
theorem calculate_crime_impact_deterministic (d : DistFn) (plat plon plat2 plon2 : ℚ)
    (crimes crimes2 : List Crime) (h1 : plat = plat2) (h2 : plon = plon2)
    (h3 : crimes = crimes2) :
    calculate_crime_impact d plat plon crimes =
      calculate_crime_impact d plat2 plon2 crimes2 := by
  rw [h1, h2, h3]

theorem calculate_crime_impact_deterministic_witness :
    calculate_crime_impact dist_lat 0 0 csW = calculate_crime_impact dist_lat 0 0 csW :=
  calculate_crime_impact_deterministic dist_lat 0 0 0 0 csW csW rfl rfl rfl

theorem mem_crime_type_clusters (d : DistFn) (plat plon : ℚ) (crimes : List Crime)
    (ct : String) (v : ℚ) :
    (ct, v) ∈ crime_type_clusters d plat plon crimes ↔
      (ct ∈ (immediate_crimes d plat plon crimes).map (fun r => r.crime_type) ∧
        0 < general_type_density d plat plon crimes ct ∧
        3 / 2 < relative_type_density d plat plon crimes ct ∧
        v = relative_type_density d plat plon crimes ct) := by
  unfold crime_type_clusters
  rw [List.mem_filterMap]
  constructor
  · rintro ⟨a, ha, heq⟩
    rw [mem_uniqueFirst] at ha
    by_cases h1 : 0 < general_type_density d plat plon crimes a
    · rw [if_pos h1] at heq
      by_cases h2 : 3 / 2 < relative_type_density d plat plon crimes a
      · rw [if_pos h2] at heq
        have hpair := Option.some.inj heq
        have ha2 : a = ct := congrArg Prod.fst hpair
        subst ha2
        exact ⟨ha, h1, h2, (congrArg Prod.snd hpair).symm⟩
      · rw [if_neg h2] at heq
        cases heq
    · rw [if_neg h1] at heq
      cases heq
  · rintro ⟨hmem, h1, h2, rfl⟩
    refine ⟨ct, (mem_uniqueFirst _ _).mpr hmem, ?_⟩
    rw [if_pos h1, if_pos h2]

/-- C6: in every analysis produced with a non-empty immediate subset, a
category appears in the `crime_clusters` map exactly when it occurs in the
immediate subset, its general-area category density is positive and its
relative category density exceeds `1.5`, and the recorded value is that
relative category density; the characterisation does not involve the overall
score. -/
theorem crime_clusters_characterization (d : DistFn) (plat plon : ℚ)
    (crimes : List Crime) (s : ℚ) (a : DensityAnalysis)
    (hcalc : calculate_crime_impact d plat plon crimes = (s, AnalysisDict.data a))
    (himm : immediate_crimes d plat plon crimes ≠ []) :
    ∀ ct v, ((ct, v) ∈ a.crime_clusters.getD []) ↔
      (ct ∈ (immediate_crimes d plat plon crimes).map (fun r => r.crime_type) ∧
        0 < general_type_density d plat plon crimes ct ∧
        3 / 2 < relative_type_density d plat plon crimes ct ∧
        v = relative_type_density d plat plon crimes ct) := by
  intro ct v
  have ha := calculate_data_eq d plat plon crimes s a hcalc
  subst ha
  have hne : ¬ (immediate_crimes d plat plon crimes).isEmpty = true := by
    simp only [List.isEmpty_iff]
    exact himm
  rw [← mem_crime_type_clusters d plat plon crimes ct v]
  simp only [mk_analysis]
  rw [if_neg hne]
  by_cases hc : (crime_type_clusters d plat plon crimes).isEmpty = true
  · rw [if_pos hc]
    rw [List.isEmpty_iff] at hc
    simp [hc]
  · rw [if_neg hc]
    simp

set_option maxRecDepth 4000 in
theorem crime_clusters_characterization_witness :
    ("A", (64 : ℚ)) ∈ (mk_analysis dist_lat 0 0 csW).crime_clusters.getD [] :=
  (crime_clusters_characterization dist_lat 0 0 csW 1 (mk_analysis dist_lat 0 0 csW)
      csW_calc (by with_unfolding_all decide) "A" 64).mpr
    (by with_unfolding_all decide)

/-- C7: `haversine_distance` propagates NaN (a NaN in any input coordinate
yields NaN, with no exception, for every interpretation of the trigonometric
primitives), and on numeric inputs it computes exactly the haversine formula
with Earth radius `R = 3959.87433`. -/
theorem haversine_nan_propagation_and_formula (t : TrigOps)
    (lat1 lon1 lat2 lon2 : FpVal) :
    ((lat1 = FpVal.nan ∨ lon1 = FpVal.nan ∨ lat2 = FpVal.nan ∨ lon2 = FpVal.nan) →
      haversine_distance t lat1 lon1 lat2 lon2 = FpVal.nan) ∧
    ∀ a b c e : ℚ,
      haversine_distance t (FpVal.num a) (FpVal.num b) (FpVal.num c) (FpVal.num e) =
        FpVal.num (haversine_formula t a b c e) := by
  constructor
  · intro h
    rcases lat1 with _ | a <;> rcases lon1 with _ | b <;>
      rcases lat2 with _ | c <;> rcases lon2 with _ | e <;>
      first
        | rfl
        | simp at h
  · intro a b c e
    rfl

theorem haversine_nan_propagation_and_formula_witness :
    haversine_distance trig0 FpVal.nan (FpVal.num 0) (FpVal.num 0) (FpVal.num 0) =
      FpVal.nan :=
  (haversine_nan_propagation_and_formula trig0 FpVal.nan (FpVal.num 0) (FpVal.num 0)
      (FpVal.num 0)).1 (Or.inl rfl)

theorem distSq_comm (p q : ℚ × ℚ) : distSq p q = distSq q p := by
  unfold distSq
  ring

theorem adjB_iff (pts : List (ℚ × ℚ)) (i j : ℕ) :
    adjB pts i j = true ↔
      i ≠ j ∧ i < pts.length ∧ j < pts.length ∧
        distSq (pts.getD i (0, 0)) (pts.getD j (0, 0)) ≤ eps ^ 2 := by
  simp [adjB, and_assoc]

theorem adjB_symm (pts : List (ℚ × ℚ)) (i j : ℕ) (h : adjB pts i j = true) :
    adjB pts j i = true := by
  rw [adjB_iff] at h ⊢
  obtain ⟨h1, h2, h3, h4⟩ := h
  refine ⟨Ne.symm h1, h3, h2, ?_⟩
  rwa [distSq_comm]

theorem reachB_refl (pts : List (ℚ × ℚ)) (f i : ℕ) : reachB pts f i i = true := by
  cases f <;> simp [reachB]

theorem reachB_step (pts : List (ℚ × ℚ)) (f i k j : ℕ) (ha : adjB pts i k = true)
    (hr : reachB pts f k j = true) : reachB pts (f + 1) i j = true := by
  have hk : k < pts.length := ((adjB_iff pts i k).mp ha).2.2.1
  simp only [reachB, Bool.or_eq_true, List.any_eq_true]
  right
  exact ⟨k, List.mem_range.mpr hk, by simp [ha, hr]⟩

theorem reachB_mono (pts : List (ℚ × ℚ)) (f : ℕ) :
    ∀ i j, reachB pts f i j = true → reachB pts (f + 1) i j = true := by
  induction f with
  | zero =>
    intro i j h
    simp only [reachB, decide_eq_true_eq] at h
    subst h
    exact reachB_refl pts 1 i
  | succ f ih =>
    intro i j h
    simp only [reachB, Bool.or_eq_true, List.any_eq_true, Bool.and_eq_true,
      decide_eq_true_eq] at h
    rcases h with rfl | ⟨k, hk, ha, hr⟩
    · exact reachB_refl pts (f + 2) i
    · exact reachB_step pts (f + 1) i k j ha (ih k j hr)

theorem reachB_le (pts : List (ℚ × ℚ)) (f g : ℕ) (hfg : f ≤ g) (i j : ℕ)
    (h : reachB pts f i j = true) : reachB pts g i j = true := by
  induction g with
  | zero =>
    have hf : f = 0 := Nat.le_zero.mp hfg
    subst hf
    exact h
  | succ g ih =>
    rcases Nat.lt_or_ge f (g + 1) with hl | hg
    · exact reachB_mono pts g i j (ih (Nat.lt_succ_iff.mp hl))
    · have hf : f = g + 1 := le_antisymm hfg hg
      subst hf
      exact h

theorem reachB_trans (pts : List (ℚ × ℚ)) (f g : ℕ) :
    ∀ i j k, reachB pts f i j = true → reachB pts g j k = true →
      reachB pts (f + g) i k = true := by
  induction f with
  | zero =>
    intro i j k h1 h2
    simp only [reachB, decide_eq_true_eq] at h1
    subst h1
    simpa [Nat.zero_add] using h2
  | succ f ih =>
    intro i j k h1 h2
    simp only [reachB, Bool.or_eq_true, List.any_eq_true, Bool.and_eq_true,
      decide_eq_true_eq] at h1
    rcases h1 with rfl | ⟨m, hm, ha, hr⟩
    · exact reachB_le pts g (f + 1 + g) (by omega) i k h2
    · have hmk := ih m j k hr h2
      have hstep := reachB_step pts (f + g) i m k ha hmk
      have harith : f + g + 1 = f + 1 + g := by omega
      rwa [harith] at hstep

theorem reachB_last (pts : List (ℚ × ℚ)) (f : ℕ) :
    ∀ i m, reachB pts f i m = true → i ≠ m →
      ∃ k, reachB pts f i k = true ∧ adjB pts k m = true := by
  induction f with
  | zero =>
    intro i m h hne
    simp only [reachB, decide_eq_true_eq] at h
    exact absurd h hne
  | succ f ih =>
    intro i m h hne
    simp only [reachB, Bool.or_eq_true, List.any_eq_true, Bool.and_eq_true,
      decide_eq_true_eq] at h
    rcases h with rfl | ⟨k0, hk0, ha, hr⟩
    · exact absurd rfl hne
    · by_cases hkm : k0 = m
      · subst hkm
        exact ⟨i, reachB_refl pts (f + 1) i, ha⟩
      · obtain ⟨k, hk1, hk2⟩ := ih k0 m hr hkm
        exact ⟨k, reachB_step pts f i k0 k ha hk1, hk2⟩

theorem mem_componentB (pts : List (ℚ × ℚ)) (i j : ℕ) :
    j ∈ componentB pts i ↔ j < pts.length ∧ reachB pts pts.length i j = true := by
  simp [componentB, List.mem_filter, List.mem_range]

theorem not_noise_has_neighbor (pts : List (ℚ × ℚ)) (i : ℕ)
    (h : isNoiseB pts i = false) : ∃ j, adjB pts i j = true := by
  by_contra hno
  push_neg at hno
  have hall : isNoiseB pts i = true := by
    unfold isNoiseB
    rw [List.all_eq_true]
    intro j hj
    have hfalse : adjB pts i j = false := Bool.eq_false_iff.mpr (hno j)
    simp [hfalse]
  rw [h] at hall
  cases hall

theorem noise_no_neighbor (pts : List (ℚ × ℚ)) (n k : ℕ) (hn : isNoiseB pts n = true)
    (ha : adjB pts n k = true) : False := by
  unfold isNoiseB at hn
  rw [List.all_eq_true] at hn
  have hk : k < pts.length := ((adjB_iff pts n k).mp ha).2.2.1
  have hcontra := hn k (List.mem_range.mpr hk)
  rw [ha] at hcontra
  cases hcontra

theorem mem_cluster_and_merge (ty : String) (pts : List (ℚ × ℚ)) (c : ClusterPolygon)
    (hc : c ∈ cluster_and_merge ty pts) :
    c.crime_type = ty ∧ ∃ i, isNoiseB pts i = false ∧
      (componentB pts i).head? = some i ∧ c.members = componentB pts i := by
  unfold cluster_and_merge at hc
  rw [List.mem_map] at hc
  obtain ⟨p, hp, hcp⟩ := hc
  have hget := List.mem_enum_iff_get?.mp hp
  have hsnd : p.2 ∈ cluster_reps pts := List.get?_mem hget
  unfold cluster_reps at hsnd
  rw [List.mem_filter] at hsnd
  obtain ⟨hrange, hcond⟩ := hsnd
  rw [Bool.and_eq_true] at hcond
  obtain ⟨hnn, hhead⟩ := hcond
  rw [Bool.not_eq_true'] at hnn
  rw [decide_eq_true_eq] at hhead
  subst hcp
  exact ⟨rfl, p.2, hnn, hhead, rfl⟩

theorem two_le_length_of_mem_ne {α : Type} {l : List α} {x y : α} (hx : x ∈ l)
    (hy : y ∈ l) (hne : x ≠ y) : 2 ≤ l.length := by
  cases l with
  | nil => cases hx
  | cons a t =>
    cases t with
    | nil =>
      rw [List.mem_singleton] at hx hy
      exact absurd (hx.trans hy.symm) hne
    | cons b t2 =>
      simp only [List.length_cons]
      omega

theorem cluster_and_merge_eq_nil_of_far (ty : String) (pts : List (ℚ × ℚ))
    (h : ∀ i j, i < pts.length → j < pts.length → i ≠ j →
      eps ^ 2 < distSq (pts.getD i (0, 0)) (pts.getD j (0, 0))) :
    cluster_and_merge ty pts = [] := by
  have hnoise : ∀ i, isNoiseB pts i = true := by
    intro i
    unfold isNoiseB
    rw [List.all_eq_true]
    intro j hj
    rw [Bool.not_eq_true']
    cases hb : adjB pts i j with
    | false => rfl
    | true =>
      obtain ⟨h1, h2, h3, h4⟩ := (adjB_iff pts i j).mp hb
      exact absurd h4 (not_le.mpr (h i j h2 h3 h1))
  have hreps : cluster_reps pts = [] := by
    unfold cluster_reps
    rw [List.filter_eq_nil_iff]
    intro i hi
    intro hcond
    rw [Bool.and_eq_true] at hcond
    obtain ⟨hnn, _⟩ := hcond
    rw [Bool.not_eq_true'] at hnn
    rw [hnoise i] at hnn
    cases hnn
  unfold cluster_and_merge
  rw [hreps]
  rfl

/-- C5: every polygon produced by `cluster_and_merge` derives from at least
two incidents of the group (whose single crime type it carries), each member
lying within the clustering threshold `eps` of another member of the same
cluster; noise points never occur in a polygon; and a group with fewer than
two points, or whose points are pairwise farther apart than `eps`, yields the
empty list as a normal result. -/
theorem cluster_polygons_sound (ty : String) (pts : List (ℚ × ℚ)) :
    (∀ c ∈ cluster_and_merge ty pts,
        c.crime_type = ty ∧ c.members.Nodup ∧ 2 ≤ c.members.length ∧
        (∀ m ∈ c.members, m < pts.length) ∧
        (∀ m ∈ c.members, ∃ k ∈ c.members, k ≠ m ∧
          distSq (pts.getD m (0, 0)) (pts.getD k (0, 0)) ≤ eps ^ 2)) ∧
      (∀ n, isNoiseB pts n = true → ∀ c ∈ cluster_and_merge ty pts, n ∉ c.members) ∧
      (pts.length < 2 → cluster_and_merge ty pts = []) ∧
      ((∀ i j, i < pts.length → j < pts.length → i ≠ j →
          eps ^ 2 < distSq (pts.getD i (0, 0)) (pts.getD j (0, 0))) →
        cluster_and_merge ty pts = []) := by
  refine ⟨?_, ?_, ?_, cluster_and_merge_eq_nil_of_far ty pts⟩
  · intro c hc
    obtain ⟨hty, i, hnn, hhead, hmem⟩ := mem_cluster_and_merge ty pts c hc
    obtain ⟨j, hj⟩ := not_noise_has_neighbor pts i hnn
    obtain ⟨hne, hilen, hjlen, hdist⟩ := (adjB_iff pts i j).mp hj
    have hi_mem : i ∈ componentB pts i :=
      (mem_componentB pts i i).mpr ⟨hilen, reachB_refl pts pts.length i⟩
    have hreach_j : reachB pts pts.length i j = true :=
      reachB_le pts 1 pts.length (by omega) i j
        (reachB_step pts 0 i j j hj (reachB_refl pts 0 j))
    have hj_mem : j ∈ componentB pts i := (mem_componentB pts i j).mpr ⟨hjlen, hreach_j⟩
    refine ⟨hty, ?_, ?_, ?_, ?_⟩
    · rw [hmem]
      exact List.Nodup.filter _ (List.nodup_range _)
    · rw [hmem]
      exact two_le_length_of_mem_ne hi_mem hj_mem hne
    · intro m hm
      rw [hmem] at hm
      exact ((mem_componentB pts i m).mp hm).1
    · intro m hm
      rw [hmem] at hm
      obtain ⟨hmlen, hreach⟩ := (mem_componentB pts i m).mp hm
      by_cases him : i = m
      · subst him
        refine ⟨j, ?_, Ne.symm hne, hdist⟩
        rw [hmem]
        exact hj_mem
      · obtain ⟨k, hk1, hk2⟩ := reachB_last pts pts.length i m hreach him
        obtain ⟨hkm, hklen, hmlen2, hkdist⟩ := (adjB_iff pts k m).mp hk2
        refine ⟨k, ?_, hkm, ?_⟩
        · rw [hmem]
          exact (mem_componentB pts i k).mpr ⟨hklen, hk1⟩
        · rwa [distSq_comm]
  · intro n hn c hc hmemn
    obtain ⟨hty, i, hnn, hhead, hmem⟩ := mem_cluster_and_merge ty pts c hc
    rw [hmem] at hmemn
    obtain ⟨hnlen, hreach⟩ := (mem_componentB pts i n).mp hmemn
    by_cases hin : i = n
    · subst hin
      rw [hn] at hnn
      cases hnn
    · obtain ⟨k, hk1, hk2⟩ := reachB_last pts pts.length i n hreach hin
      exact noise_no_neighbor pts n k hn (adjB_symm pts k n hk2)
  · intro hlen
    apply cluster_and_merge_eq_nil_of_far
    intro i j hi hj hne
    exact absurd (show i = j by omega) hne

theorem cluster_polygons_sound_witness :
    2 ≤ (ClusterPolygon.mk "BURGLARY" [0, 1] 0).members.length ∧
      cluster_and_merge "ARSON" [((0 : ℚ), (0 : ℚ))] = [] :=
  ⟨((cluster_polygons_sound "BURGLARY" ptsW).1 (ClusterPolygon.mk "BURGLARY" [0, 1] 0)
      (by with_unfolding_all decide)).2.2.1,
    (cluster_polygons_sound "ARSON" [((0 : ℚ), (0 : ℚ))]).2.2.1 (by decide)⟩

theorem foldl_min_le (l : List ℚ) :
    ∀ a : ℚ, l.foldl min a ≤ a ∧ ∀ x ∈ l, l.foldl min a ≤ x := by
  induction l with
  | nil =>
    intro a
    refine ⟨le_refl a, ?_⟩
    intro x hx
    cases hx
  | cons y ys ih =>
    intro a
    simp only [List.foldl_cons]
    obtain ⟨h1, h2⟩ := ih (min a y)
    refine ⟨le_trans h1 (min_le_left a y), ?_⟩
    intro x hx
    rcases List.mem_cons.mp hx with rfl | hx
    · exact le_trans h1 (min_le_right a x)
    · exact h2 x hx

theorem foldl_max_ge (l : List ℚ) :
    ∀ a : ℚ, a ≤ l.foldl max a ∧ ∀ x ∈ l, x ≤ l.foldl max a := by
  induction l with
  | nil =>
    intro a
    refine ⟨le_refl a, ?_⟩
    intro x hx
    cases hx
  | cons y ys ih =>
    intro a
    simp only [List.foldl_cons]
    obtain ⟨h1, h2⟩ := ih (max a y)
    refine ⟨le_trans (le_max_left a y) h1, ?_⟩
    intro x hx
    rcases List.mem_cons.mp hx with rfl | hx
    · exact le_trans (le_max_right a x) h1
    · exact h2 x hx

theorem qminList_le (l : List ℚ) (x : ℚ) (hx : x ∈ l) : qminList l ≤ x := by
  cases l with
  | nil => cases hx
  | cons y ys =>
    unfold qminList
    rcases List.mem_cons.mp hx with rfl | hx
    · exact (foldl_min_le ys x).1
    · exact (foldl_min_le ys y).2 x hx

theorem qmaxList_ge (l : List ℚ) (x : ℚ) (hx : x ∈ l) : x ≤ qmaxList l := by
  cases l with
  | nil => cases hx
  | cons y ys =>
    unfold qmaxList
    rcases List.mem_cons.mp hx with rfl | hx
    · exact (foldl_max_ge ys x).1
    · exact (foldl_max_ge ys y).2 x hx

/-- C9: every reported coverage area arises from one 0.1-degree-truncation
spatial bin of the valid (windowed, non-NULL) rows: its count is the size of
that bin, strictly greater than 10, its bounds enclose every point of the
bin, and every valid row with that bin key belongs to the bin. -/
theorem coverage_areas_sound (cutoff : ℤ) (rows : List CrimeRow) :
    ∀ a ∈ get_crime_coverage_areas cutoff rows,
      10 < a.crime_count ∧
      ∃ k : ℚ × ℚ,
        a.crime_count =
          ((validRows cutoff rows).filter (fun p => binKey p.1 p.2 = k)).length ∧
        (∀ p ∈ (validRows cutoff rows).filter (fun p => binKey p.1 p.2 = k),
          a.min_lat ≤ p.1 ∧ p.1 ≤ a.max_lat ∧ a.min_lon ≤ p.2 ∧ p.2 ≤ a.max_lon) ∧
        (∀ p ∈ validRows cutoff rows, binKey p.1 p.2 = k →
          p ∈ (validRows cutoff rows).filter (fun p => binKey p.1 p.2 = k)) := by
  intro a ha
  unfold get_crime_coverage_areas at ha
  rw [List.mem_filterMap] at ha
  obtain ⟨k, hk, heq⟩ := ha
  by_cases hbig :
      10 < ((validRows cutoff rows).filter (fun p => binKey p.1 p.2 = k)).length
  · rw [if_pos hbig] at heq
    have ha2 := Option.some.inj heq
    subst ha2
    refine ⟨hbig, k, rfl, ?_, ?_⟩
    · intro p hp
      have h1 : p.1 ∈ ((validRows cutoff rows).filter
          (fun p => binKey p.1 p.2 = k)).map (fun p => p.1) :=
        List.mem_map_of_mem _ hp
      have h2 : p.2 ∈ ((validRows cutoff rows).filter
          (fun p => binKey p.1 p.2 = k)).map (fun p => p.2) :=
        List.mem_map_of_mem _ hp
      exact ⟨qminList_le _ _ h1, qmaxList_ge _ _ h1, qminList_le _ _ h2, qmaxList_ge _ _ h2⟩
    · intro p hp hkey
      rw [List.mem_filter]
      refine ⟨hp, ?_⟩
      rw [decide_eq_true_eq]
      exact hkey
  · rw [if_neg hbig] at heq
    cases heq

theorem coverage_areas_sound_witness :
    10 < (CoverageArea.mk 0 (1 / 20) 0 0 11).crime_count :=
  (coverage_areas_sound 0 rowsW (CoverageArea.mk 0 (1 / 20) 0 0 11)
      (by with_unfolding_all decide)).1

theorem get_crime_category_insufficient_iff (score : ℚ) (scores : List ℚ) :
    get_crime_category score scores = "Insufficient Data" ↔ score < 0 := by
  unfold get_crime_category
  split_ifs with h1 h2 h3
  · exact iff_of_true rfl h1
  · exact iff_of_false (by decide) h1
  · exact iff_of_false (by decide) h1
  · exact iff_of_false (by decide) h1

theorem update_foldl_frame (now : String) (scores : List ℚ) (l : Listing) (i : ℕ) :
    ∀ (ps : List (String × ℚ)) (store : List Listing),
      store[i]? = some l → (∀ p ∈ ps, p.1 = l.address → p.2 < 0) →
      (ps.foldl
        (fun st p =>
          if get_crime_category p.2 scores ≠ "Insufficient Data" then
            sql_update_listing now st (get_crime_category p.2 scores) p.1
          else st)
        store)[i]? = some l := by
  intro ps
  induction ps with
  | nil =>
    intro store hl _
    simpa using hl
  | cons p ps ih =>
    intro store hl h
    rw [List.foldl_cons]
    apply ih
    · by_cases hc : get_crime_category p.2 scores ≠ "Insufficient Data"
      · rw [if_pos hc]
        have hneg : ¬ p.2 < 0 := fun hn =>
          hc ((get_crime_category_insufficient_iff p.2 scores).mpr hn)
        have hne : ¬ l.address = p.1 := fun he =>
          hneg (h p (List.mem_cons_self p ps) he.symm)
        unfold sql_update_listing
        rw [List.getElem?_map, hl]
        simp only [Option.map_some']
        rw [if_neg hne]
      · rw [if_neg hc]
        exact hl
    · intro q hq hqa
      exact h q (List.mem_cons_of_mem p hq) hqa

/-- C10: a listing targeted only by properties whose score is negative
(category Insufficient Data) is left completely unchanged by the batch update
step; only properties with a numeric category issue a write. -/
theorem insufficient_data_listings_unchanged (now : String) (props : List (String × ℚ))
    (store : List Listing) (i : ℕ) (l : Listing) (hl : store[i]? = some l)
    (h : ∀ p ∈ props, p.1 = l.address → p.2 < 0) :
    (update_listing_analysis_writes now props store)[i]? = some l := by
  unfold update_listing_analysis_writes
  exact update_foldl_frame now (props.map (fun q => q.2)) l i props store hl h

theorem insufficient_data_listings_unchanged_witness :
    (update_listing_analysis_writes "2025-01-01" [("123 Main St", -1)] storeW)[0]? =
      some (Listing.mk "123 Main St" none none) :=
  insufficient_data_listings_unchanged "2025-01-01" [("123 Main St", -1)] storeW 0
    (Listing.mk "123 Main St" none none) (by decide) (by with_unfolding_all decide)
